import Mathlib

/-!
Verification of the core of `eslint-plugin-variable-naming`
(rule `enforce-variable-naming-convention`).

The rule's closure is embedded shallowly:
* the five case-convention validators (anchored regexes) and converters
  (JS `String.replace` chains) are modelled character-exactly on `List Char`
  (ASCII case mapping, as in JS for the identifier alphabet; the `.` of the
  JS regexes excludes line terminators, which is modelled explicitly);
* the ESTree nodes the rule inspects become an inductive `Expr` /
  `VariableDeclarator`; the host's source-text oracle for member expressions
  is carried as a field, and the type-checker and scope lookups are oracles
  passed to the functions that consult them;
* the `VariableDeclarator` visitor becomes a function returning
  `Option Finding`.
-/

namespace VariableNaming

/-! ### ASCII character classes (the regex character classes of the source) -/

/-- Class `[a-z]` of the source regexes. -/
def isAsciiLower (c : Char) : Bool := 97 ≤ c.toNat && c.toNat ≤ 122

/-- Class `[A-Z]` of the source regexes. -/
def isAsciiUpper (c : Char) : Bool := 65 ≤ c.toNat && c.toNat ≤ 90

/-- Class `[0-9]` of the source regexes. -/
def isAsciiDigit (c : Char) : Bool := 48 ≤ c.toNat && c.toNat ≤ 57

/-- Class `[a-zA-Z0-9]`. -/
def isAlnumChar (c : Char) : Bool := isAsciiLower c || isAsciiUpper c || isAsciiDigit c

/-- Class `[a-z0-9_]` (tail class of the snake_case validator). -/
def isSnakeTail (c : Char) : Bool := isAsciiLower c || isAsciiDigit c || c == '_'

/-- Class `[A-Z0-9_]` (tail class of the UPPER_SNAKE_CASE validator). -/
def isUpperSnakeTail (c : Char) : Bool := isAsciiUpper c || isAsciiDigit c || c == '_'

/-- Class `[a-z0-9-]` (tail class of the kebab-case validator). -/
def isKebabTail (c : Char) : Bool := isAsciiLower c || isAsciiDigit c || c == '-'

/-- Class `[-_]` (separator class of the camel/Pascal converters). -/
def isSepChar (c : Char) : Bool := c == '-' || c == '_'

/-- JS line terminators, which the regex metacharacter `.` does not match. -/
def isLineTerm (c : Char) : Bool :=
  c.toNat = 10 || c.toNat = 13 || c.toNat = 0x2028 || c.toNat = 0x2029

/-! ### Case validators (`caseValidators` in the source)

Each source validator is an anchored full-match regex
`^<first><rest>*$`, embedded as: nonempty, head in the first class,
tail in the rest class. -/

inductive CaseType where
  | camelCase
  | PascalCase
  | snake_case
  | UPPER_SNAKE_CASE
  | kebab_case
deriving DecidableEq, Repr

/-- Full match of `^f r*$` on a character list. -/
def matchesShape (f r : Char → Bool) : List Char → Bool
  | [] => false
  | c :: rest => f c && rest.all r

/-- Table `caseValidators` from the source: one anchored regex test per convention. -/
def caseValidators : CaseType → String → Bool
  | .camelCase => fun name => matchesShape isAsciiLower isAlnumChar name.toList
  | .PascalCase => fun name => matchesShape isAsciiUpper isAlnumChar name.toList
  | .snake_case => fun name => matchesShape isAsciiLower isSnakeTail name.toList
  | .UPPER_SNAKE_CASE => fun name => matchesShape isAsciiUpper isUpperSnakeTail name.toList
  | .kebab_case => fun name => matchesShape isAsciiLower isKebabTail name.toList

/-! ### Case converters (`caseConverters` in the source) -/

/-- Embeds `name.replace(/[-_](.)/g, (_, char) => char.toUpperCase())`:
left-to-right non-overlapping global scan; a separator matches only when
followed by a non-line-terminator character, and the pair is replaced by
the upper-cased following character. -/
def sepUpperL : List Char → List Char
  | [] => []
  | c :: rest =>
    if isSepChar c then
      match rest with
      | [] => [c]
      | d :: rest2 =>
        if isLineTerm d then c :: sepUpperL (d :: rest2)
        else d.toUpper :: sepUpperL rest2
    else c :: sepUpperL rest

/-- Embeds `name.replace(/^(.)/, (char) => char.toLowerCase())`: lower-case the
first character when there is one and it is not a line terminator. -/
def lowerFirstL : List Char → List Char
  | [] => []
  | c :: rest => if isLineTerm c then c :: rest else c.toLower :: rest

/-- Embeds `name.replace(/^(.)/, (char) => char.toUpperCase())`. -/
def upperFirstL : List Char → List Char
  | [] => []
  | c :: rest => if isLineTerm c then c :: rest else c.toUpper :: rest

/-- Embeds `name.replace(/([A-Z])/g, sep + '$1')`: insert `sep` before every
ASCII-uppercase character. -/
def insertSepL (sep : Char) : List Char → List Char
  | [] => []
  | c :: rest =>
    if isAsciiUpper c then sep :: c :: insertSepL sep rest
    else c :: insertSepL sep rest

/-- Embeds `name.replace(/^X/, '')` for a literal character `X`: drop one leading
occurrence of `sep`. -/
def dropLeading (sep : Char) : List Char → List Char
  | [] => []
  | c :: rest => if c == sep then rest else c :: rest

/-- Table `caseConverters` from the source, one `String.replace` chain per
convention (`toLowerCase`/`toUpperCase` are the ASCII case maps on the
identifier alphabet). -/
def caseConverters : CaseType → String → String
  | .camelCase => fun name => String.mk (lowerFirstL (sepUpperL name.toList))
  | .PascalCase => fun name => String.mk (upperFirstL (sepUpperL name.toList))
  | .snake_case => fun name =>
      String.mk (dropLeading '_' ((insertSepL '_' name.toList).map Char.toLower))
  | .UPPER_SNAKE_CASE => fun name =>
      String.mk (dropLeading '_' ((insertSepL '_' name.toList).map Char.toUpper))
  | .kebab_case => fun name =>
      String.mk (dropLeading '-' ((insertSepL '-' name.toList).map Char.toLower))

/-! ### ESTree nodes (the shapes `create`'s helpers dispatch on)

`memberExpression` carries, besides its object, the source text the host's
`sourceCode.getText` would render for the whole expression (the textual
oracle of `isMemberExpressionComponent`).  Nodes irrelevant to this rule's
dispatch (they fall into every `else`/default branch) are `otherExpression`. -/

inductive Expr where
  | literal
  | templateLiteral
  | arrayExpression
  | objectExpression
  | identifier (name : String)
  | unaryExpression
  | binaryExpression
  | logicalExpression
  | conditionalExpression
  | memberExpression (obj : Expr) (sourceText : String)
  | callExpression (callee : Expr)
  | taggedTemplateExpression (tag : Expr)
  | arrowFunctionExpression
  | functionExpression
  | otherExpression
deriving DecidableEq, Repr

/-- Tag `init.type` / `callee.type` — the ESTree type tag of a node. -/
def Expr.nodeType : Expr → String
  | .literal => "Literal"
  | .templateLiteral => "TemplateLiteral"
  | .arrayExpression => "ArrayExpression"
  | .objectExpression => "ObjectExpression"
  | .identifier _ => "Identifier"
  | .unaryExpression => "UnaryExpression"
  | .binaryExpression => "BinaryExpression"
  | .logicalExpression => "LogicalExpression"
  | .conditionalExpression => "ConditionalExpression"
  | .memberExpression _ _ => "MemberExpression"
  | .callExpression _ => "CallExpression"
  | .taggedTemplateExpression _ => "TaggedTemplateExpression"
  | .arrowFunctionExpression => "ArrowFunctionExpression"
  | .functionExpression => "FunctionExpression"
  | .otherExpression => "OtherExpression"

/-- The inner node of a syntactic type annotation on the binding identifier:
either the literal `any` keyword (`TSAnyKeyword`) or anything else. -/
inductive TypeAnnot where
  | tsAnyKeyword
  | otherAnnot
deriving DecidableEq, Repr

/-- Target `node.id`: either a plain identifier (with an optional type annotation)
or a destructuring pattern (array/object pattern). -/
inductive BindingId where
  | identifier (name : String) (annot : Option TypeAnnot)
  | pattern
deriving DecidableEq, Repr

/-- A variable declarator: binding target plus optional initializer. -/
structure VariableDeclarator where
  id : BindingId
  init : Option Expr
deriving DecidableEq, Repr

/-- What `checker.getTypeAtLocation` + `checker.typeToString` yield for a
declarator's identifier: the type's flag word and its display string. -/
structure TsType where
  flags : Nat
  display : String
deriving DecidableEq, Repr

/-- The external type-checking engine, as a fallible oracle: `.error` models
the query (node mapping, type resolution, or printing) throwing. -/
def TypeOracle := VariableDeclarator → Except Unit TsType

/-- The scope lookup behind `isImportedVariable`: whether the enclosing
scope records a variable of the given name having an import-binding
definition (`variable?.defs.some(def => def.type === 'ImportBinding') ?? false`). -/
def ImportLookup := String → Bool

/-- The resolved options captured by `create`'s closure.  Regex-valued
options are carried as their compiled `test` predicates (`RegExp.test`),
`hookPattern : none` modelling the option set to `null`/absent. -/
structure Config where
  caseType : CaseType
  allowedPatterns : List (String → Bool)
  excludeTypes : List String
  componentCreators : List String
  styledLibraries : List String
  hookPattern : Option (String → Bool)
  checkFunctions : Bool
  ignoreDestructuring : Bool
  ignoreImports : Bool

/-- Source `isValidCase`. -/
def isValidCase (cfg : Config) (name : String) : Bool :=
  caseValidators cfg.caseType name

/-- Source `convertToCase`. -/
def convertToCase (cfg : Config) (name : String) : String :=
  caseConverters cfg.caseType name

/-- Source `isAllowedByPattern`: some configured pattern matches the name. -/
def isAllowedByPattern (cfg : Config) (name : String) : Bool :=
  cfg.allowedPatterns.any (fun pat => pat name)

/-- Source `hasAnyType`: a syntactic `any` annotation answers `true` immediately;
otherwise the type oracle is consulted inside `try`, a thrown query yields
`false`, an excluded display string yields `false`, and otherwise the
verdict is `flags & 1 ≠ 0 || display = "any"`. -/
def hasAnyType (cfg : Config) (oracle : TypeOracle) (node : VariableDeclarator) : Bool :=
  match node.id with
  | .identifier _ (some .tsAnyKeyword) => true
  | _ =>
    match oracle node with
    | .error _ => false
    | .ok t =>
      if cfg.excludeTypes.contains t.display then false
      else ((t.flags &&& 1) != 0) || t.display == "any"

/-- Source `isComponentCreator` on a non-null initializer (the recursive body). -/
def isComponentCreatorExpr (cfg : Config) (init : Expr) : Bool :=
  if cfg.componentCreators.length == 0 && cfg.styledLibraries.length == 0 then
    false
  else
    match init with
    | .taggedTemplateExpression (.memberExpression (.identifier objName) _) =>
        cfg.styledLibraries.contains objName
    | .taggedTemplateExpression (.identifier tagName) =>
        cfg.styledLibraries.contains tagName
    | .taggedTemplateExpression _ => false
    | .callExpression (.identifier calleeName) =>
        cfg.componentCreators.contains calleeName
    | .callExpression (.memberExpression (.identifier objName) _) =>
        cfg.styledLibraries.contains objName
    | .callExpression (.callExpression inner) =>
        isComponentCreatorExpr cfg (.callExpression inner)
    | _ => false

/-- Source `isComponentCreator(init)` with its `!init` null check. -/
def isComponentCreator (cfg : Config) : Option Expr → Bool
  | none => false
  | some init => isComponentCreatorExpr cfg init

/-- Regex `/^[A-Z][a-zA-Z0-9_]*\[/` tested (searched) against rendered source
text: an ASCII-uppercase first character, then word characters, then `[`.
Since `[` is not a word character, greedy matching and backtracking agree:
the run of word characters after the head must end at a `[`. -/
def isWordChar (c : Char) : Bool :=
  isAsciiLower c || isAsciiUpper c || isAsciiDigit c || c == '_'

def memberTextRun : List Char → Bool
  | [] => false
  | c :: rest => if c == '[' then true else if isWordChar c then memberTextRun rest else false

def memberTextMatches (text : String) : Bool :=
  match text.toList with
  | [] => false
  | c :: rest => isAsciiUpper c && memberTextRun rest

/-- Source `isMemberExpressionComponent`: textual heuristic on member-expression
initializers. -/
def isMemberExpressionComponent : Option Expr → Bool
  | some (.memberExpression _ text) => memberTextMatches text
  | _ => false

/-- The `init.type` membership list of `isSimpleValue`. -/
def simpleTypes : List String :=
  ["Literal", "TemplateLiteral", "ArrayExpression", "ObjectExpression",
   "Identifier", "UnaryExpression", "BinaryExpression", "LogicalExpression",
   "ConditionalExpression", "MemberExpression"]

/-- Source `isSimpleValue`. -/
def isSimpleValue (cfg : Config) (node : VariableDeclarator) : Bool :=
  match node.init with
  | none => false
  | some init =>
    if isComponentCreator cfg (some init) || isMemberExpressionComponent (some init) then
      false
    else if simpleTypes.contains init.nodeType then
      true
    else
      match init with
      | .callExpression (.identifier calleeName) =>
        (match cfg.hookPattern with
         | some hookTest => hookTest calleeName
         | none => false)
      | _ => init.nodeType == "CallExpression"

/-- Source `isFunction`. -/
def isFunction (node : VariableDeclarator) : Bool :=
  match node.init with
  | some .arrowFunctionExpression => true
  | some .functionExpression => true
  | _ => false

/-- Source `isImportedVariable`: `false` for non-identifier targets, otherwise the
scope lookup's verdict for the name. -/
def isImportedVariable (lookup : ImportLookup) (node : VariableDeclarator) : Bool :=
  match node.id with
  | .identifier varName _ => lookup varName
  | .pattern => false

/-- A reported naming finding: the data fields of the `context.report` call
plus the single-identifier replacement fix text. -/
structure Finding where
  currentName : String
  expectedCase : CaseType
  suggestedName : String
deriving DecidableEq, Repr

/-- Source `reportNamingIssue`: no-op when the converted name equals the current
name, otherwise one report carrying current name, expected case and
suggestion (which is also the fix's replacement text). -/
def reportNamingIssue (cfg : Config) (varName : String) : Option Finding :=
  let suggestedName := convertToCase cfg varName
  if suggestedName == varName then none
  else some ⟨varName, cfg.caseType, suggestedName⟩

/-- The `VariableDeclarator` visitor: the guard chain followed by the
validate/report step, returning the finding it emits (if any). -/
def visitVariableDeclarator (cfg : Config) (oracle : TypeOracle)
    (lookup : ImportLookup) (node : VariableDeclarator) : Option Finding :=
  match node.id with
  | .pattern =>
    -- first guard: non-identifier target with ignoreDestructuring set;
    -- second guard: non-identifier target, unconditionally
    if cfg.ignoreDestructuring then none else none
  | .identifier varName _ =>
    if cfg.ignoreImports && isImportedVariable lookup node then none
    else if isAllowedByPattern cfg varName then none
    else if isFunction node && !cfg.checkFunctions then none
    else
      let hasAny := hasAnyType cfg oracle node
      let isSimple := isSimpleValue cfg node
      if !hasAny && !isSimple then none
      else if !isValidCase cfg varName then reportNamingIssue cfg varName
      else none

/-- The name of the binding target (dummy `""` for patterns, which are
excluded before the name is ever read). -/
def declName (node : VariableDeclarator) : String :=
  match node.id with
  | .identifier varName _ => varName
  | .pattern => ""

/-- The spec's "in scope" verdict: the declarator survives every exclusion
guard of the chain and at least one of the two classifiers includes it. -/
def inScope (cfg : Config) (oracle : TypeOracle) (lookup : ImportLookup)
    (node : VariableDeclarator) : Bool :=
  match node.id with
  | .pattern => false
  | .identifier varName _ =>
    !(cfg.ignoreImports && isImportedVariable lookup node) &&
    !(isAllowedByPattern cfg varName) &&
    !(isFunction node && !cfg.checkFunctions) &&
    (hasAnyType cfg oracle node || isSimpleValue cfg node)

/-- The syntactic-annotation test that opens `hasAnyType` (`node.id` is an
identifier whose written type annotation is the literal `any` keyword). -/
def hasSyntacticAnyAnnot (node : VariableDeclarator) : Bool :=
  match node.id with
  | .identifier _ (some .tsAnyKeyword) => true
  | _ => false

/-! ### Concrete instances used by counterexamples and witnesses -/

/-- A configuration with default lists and the hook pattern disabled
(`hookPattern: null`). -/
def hookDisabledConfig : Config :=
  { caseType := .camelCase
    allowedPatterns := []
    excludeTypes := []
    componentCreators := ["lazy", "styled", "createElement", "memo", "forwardRef", "createContext"]
    styledLibraries := ["styled"]
    hookPattern := none
    checkFunctions := false
    ignoreDestructuring := false
    ignoreImports := false }

/-- Node `const my_data = fetchValue(...)`: a call initializer with a
bare-identifier callee that matches no configured creator. -/
def bareCallNode : VariableDeclarator :=
  ⟨.identifier "my_data" none, some (.callExpression (.identifier "fetchValue"))⟩

/-- A type oracle that always throws. -/
def throwingOracle : TypeOracle := fun _ => Except.error ()

/-- A scope lookup that finds no import bindings. -/
def noImportLookup : ImportLookup := fun _ => false

/-- A configuration with both factory lists empty (heuristic disabled). -/
def emptyListsConfig : Config :=
  { caseType := .camelCase
    allowedPatterns := []
    excludeTypes := []
    componentCreators := []
    styledLibraries := []
    hookPattern := some (fun s => s.startsWith "use")
    checkFunctions := false
    ignoreDestructuring := false
    ignoreImports := false }

/-! ## Theorems -/

/-! ### Character-level facts -/

theorem char_eq_of_toNat_eq {c d : Char} (h : c.toNat = d.toNat) : c = d :=
  Char.ext (UInt32.toNat.inj h)

theorem char_beq_iff_toNat (c d : Char) : (c == d) = true ↔ c.toNat = d.toNat := by
  constructor
  · intro h; rw [beq_iff_eq] at h; rw [h]
  · intro h; rw [beq_iff_eq]; exact char_eq_of_toNat_eq h

theorem toNat_ofNat_valid {n : Nat} (h : n < 0xd800) : (Char.ofNat n).toNat = n := by
  unfold Char.ofNat
  rw [dif_pos (Or.inl h)]
  rfl

theorem toLower_toNat_of_upper {c : Char} (h65 : 65 ≤ c.toNat) (h90 : c.toNat ≤ 90) :
    (Char.toLower c).toNat = c.toNat + 32 := by
  unfold Char.toLower
  rw [if_pos ⟨h65, h90⟩]
  exact toNat_ofNat_valid (by omega)

theorem toLower_eq_self {c : Char} (h : ¬(65 ≤ c.toNat ∧ c.toNat ≤ 90)) :
    Char.toLower c = c := by
  unfold Char.toLower
  rw [if_neg h]

theorem toUpper_toNat_of_lower {c : Char} (h97 : 97 ≤ c.toNat) (h122 : c.toNat ≤ 122) :
    (Char.toUpper c).toNat = c.toNat - 32 := by
  unfold Char.toUpper
  rw [if_pos ⟨h97, h122⟩]
  exact toNat_ofNat_valid (by omega)

theorem toUpper_eq_self {c : Char} (h : ¬(97 ≤ c.toNat ∧ c.toNat ≤ 122)) :
    Char.toUpper c = c := by
  unfold Char.toUpper
  rw [if_neg h]

theorem isAsciiLower_iff (c : Char) :
    isAsciiLower c = true ↔ (97 ≤ c.toNat ∧ c.toNat ≤ 122) := by
  unfold isAsciiLower; simp

theorem isAsciiUpper_iff (c : Char) :
    isAsciiUpper c = true ↔ (65 ≤ c.toNat ∧ c.toNat ≤ 90) := by
  unfold isAsciiUpper; simp

theorem isAsciiDigit_iff (c : Char) :
    isAsciiDigit c = true ↔ (48 ≤ c.toNat ∧ c.toNat ≤ 57) := by
  unfold isAsciiDigit; simp

theorem isAlnumChar_iff (c : Char) :
    isAlnumChar c = true ↔
      ((97 ≤ c.toNat ∧ c.toNat ≤ 122) ∨ (65 ≤ c.toNat ∧ c.toNat ≤ 90) ∨
       (48 ≤ c.toNat ∧ c.toNat ≤ 57)) := by
  unfold isAlnumChar
  rw [Bool.or_eq_true, Bool.or_eq_true, isAsciiLower_iff, isAsciiUpper_iff, isAsciiDigit_iff]
  tauto

theorem isSepChar_iff (c : Char) : isSepChar c = true ↔ (c.toNat = 45 ∨ c.toNat = 95) := by
  unfold isSepChar
  rw [Bool.or_eq_true, char_beq_iff_toNat, char_beq_iff_toNat]
  have h1 : ('-' : Char).toNat = 45 := by decide
  have h2 : ('_' : Char).toNat = 95 := by decide
  rw [h1, h2]

theorem isSnakeTail_iff (c : Char) :
    isSnakeTail c = true ↔
      ((97 ≤ c.toNat ∧ c.toNat ≤ 122) ∨ (48 ≤ c.toNat ∧ c.toNat ≤ 57) ∨ c.toNat = 95) := by
  unfold isSnakeTail
  rw [Bool.or_eq_true, Bool.or_eq_true, isAsciiLower_iff, isAsciiDigit_iff, char_beq_iff_toNat]
  have h2 : ('_' : Char).toNat = 95 := by decide
  rw [h2]
  tauto

theorem isKebabTail_iff (c : Char) :
    isKebabTail c = true ↔
      ((97 ≤ c.toNat ∧ c.toNat ≤ 122) ∨ (48 ≤ c.toNat ∧ c.toNat ≤ 57) ∨ c.toNat = 45) := by
  unfold isKebabTail
  rw [Bool.or_eq_true, Bool.or_eq_true, isAsciiLower_iff, isAsciiDigit_iff, char_beq_iff_toNat]
  have h1 : ('-' : Char).toNat = 45 := by decide
  rw [h1]
  tauto

theorem isLineTerm_iff (c : Char) :
    isLineTerm c = true ↔
      (c.toNat = 10 ∨ c.toNat = 13 ∨ c.toNat = 0x2028 ∨ c.toNat = 0x2029) := by
  unfold isLineTerm; simp; tauto

theorem isSepChar_false_of {c : Char} (h45 : c.toNat ≠ 45) (h95 : c.toNat ≠ 95) :
    isSepChar c = false := by
  rw [Bool.eq_false_iff]
  intro h
  rcases (isSepChar_iff c).mp h with h' | h' <;> omega

theorem isLineTerm_false_of {c : Char}
    (h : c.toNat ≠ 10 ∧ c.toNat ≠ 13 ∧ c.toNat ≠ 0x2028 ∧ c.toNat ≠ 0x2029) :
    isLineTerm c = false := by
  rw [Bool.eq_false_iff]
  intro hc
  rcases (isLineTerm_iff c).mp hc with h' | h' | h' | h' <;> omega

theorem isAsciiUpper_false_range {c : Char} (h : isAsciiUpper c = false) :
    ¬(65 ≤ c.toNat ∧ c.toNat ≤ 90) := by
  rw [Bool.eq_false_iff] at h
  intro hr
  exact h ((isAsciiUpper_iff c).mpr hr)

/-- Map `toLower` never produces an ASCII-uppercase character. -/
theorem isAsciiUpper_toLower (c : Char) : isAsciiUpper (Char.toLower c) = false := by
  by_cases h : 65 ≤ c.toNat ∧ c.toNat ≤ 90
  · rw [Bool.eq_false_iff]
    intro hc
    have := (isAsciiUpper_iff _).mp hc
    rw [toLower_toNat_of_upper h.1 h.2] at this
    omega
  · rw [toLower_eq_self h, Bool.eq_false_iff]
    intro hc
    exact h ((isAsciiUpper_iff c).mp hc)

/-! ### The sanity checks of the embedding on the spec's own examples -/

example : caseConverters .camelCase "my_variable" = "myVariable" := by decide
example : caseValidators .camelCase "myVariable" = true := by decide
example : caseConverters .UPPER_SNAKE_CASE "AB" = "A_B" := by decide
example : caseValidators .UPPER_SNAKE_CASE "AB" = true := by decide
example : caseConverters .camelCase "a--b" = "a-b" := by decide
example : caseConverters .camelCase "a-b" = "aB" := by decide
example : caseValidators .camelCase "" = false := by decide
example : caseConverters .snake_case "myVar" = "my_var" := by decide
example : caseConverters .kebab_case "MyVar" = "my-var" := by decide

/-! ### List-level conversion lemmas -/

theorem sepUpperL_of_no_sep {l : List Char} (h : ∀ c ∈ l, isSepChar c = false) :
    sepUpperL l = l := by
  induction l with
  | nil => rfl
  | cons c rest ih =>
    have hc : isSepChar c = false := h c (List.mem_cons_self c rest)
    unfold sepUpperL
    rw [if_neg (by simp [hc]), ih (fun d hd => h d (List.mem_cons_of_mem _ hd))]

theorem insertSepL_of_no_upper {sep : Char} {l : List Char}
    (h : ∀ c ∈ l, isAsciiUpper c = false) :
    insertSepL sep l = l := by
  induction l with
  | nil => rfl
  | cons c rest ih =>
    have hc : isAsciiUpper c = false := h c (List.mem_cons_self c rest)
    unfold insertSepL
    rw [if_neg (by simp [hc]), ih (fun d hd => h d (List.mem_cons_of_mem _ hd))]

theorem map_toLower_of_no_upper {l : List Char}
    (h : ∀ c ∈ l, isAsciiUpper c = false) :
    l.map Char.toLower = l := by
  induction l with
  | nil => rfl
  | cons c rest ih =>
    have hc : isAsciiUpper c = false := h c (List.mem_cons_self c rest)
    simp only [List.map_cons]
    rw [toLower_eq_self (isAsciiUpper_false_range hc),
        ih (fun d hd => h d (List.mem_cons_of_mem _ hd))]

theorem mk_toList (s : String) : String.mk s.toList = s := rfl

theorem toList_mk (l : List Char) : (String.mk l).toList = l := rfl

/-! ### The decision engine's emission condition -/

/-- The visitor emits a finding exactly when the guard chain passes, the
name fails validation, and conversion changes the name. -/
theorem emits_iff (cfg : Config) (oracle : TypeOracle) (lookup : ImportLookup)
    (node : VariableDeclarator) :
    (visitVariableDeclarator cfg oracle lookup node).isSome = true ↔
      (inScope cfg oracle lookup node = true ∧
       isValidCase cfg (declName node) = false ∧
       convertToCase cfg (declName node) ≠ declName node) := by
  obtain ⟨id, init⟩ := node
  cases id with
  | pattern => simp [visitVariableDeclarator, inScope, declName]
  | identifier varName annot =>
    simp only [visitVariableDeclarator, inScope, declName, reportNamingIssue]
    split <;> simp_all
    split <;> simp_all
    split <;> simp_all
    split <;> simp_all
    split <;> simp_all
    intro hconv
    by_cases hb1 : cfg.ignoreImports = true <;>
    by_cases hb2 : isFunction ⟨BindingId.identifier varName annot, init⟩ = true <;>
    by_cases hb3 : hasAnyType cfg oracle ⟨BindingId.identifier varName annot, init⟩ = true <;>
      simp_all

/-- C2 (amended): for every convention other than UPPER_SNAKE_CASE, a name
accepted by the convention's validator is a fixed point of its converter.
(For UPPER_SNAKE_CASE the claimed law fails: the converter re-inserts `_`
before every uppercase letter of an already-valid name.) -/
theorem valid_fixed_point (ct : CaseType) (hct : ct ≠ CaseType.UPPER_SNAKE_CASE)
    (name : String) (hv : caseValidators ct name = true) :
    caseConverters ct name = name := by
  cases ct with
  | UPPER_SNAKE_CASE => exact absurd rfl hct
  | camelCase =>
    simp only [caseValidators] at hv
    simp only [caseConverters]
    cases hl : name.toList with
    | nil => rw [hl] at hv; exact absurd hv (by decide)
    | cons c rest =>
      rw [hl] at hv
      unfold matchesShape at hv
      rw [Bool.and_eq_true, List.all_eq_true] at hv
      obtain ⟨hc, hrest⟩ := hv
      have hcr := (isAsciiLower_iff c).mp hc
      have hnosep : ∀ d ∈ c :: rest, isSepChar d = false := by
        intro d hd
        rcases List.mem_cons.mp hd with rfl | hd2
        · exact isSepChar_false_of (by omega) (by omega)
        · rcases (isAlnumChar_iff d).mp (hrest d hd2) with h | h | h <;>
            exact isSepChar_false_of (by omega) (by omega)
      rw [sepUpperL_of_no_sep hnosep]
      simp only [lowerFirstL]
      have hlt : isLineTerm c = false := isLineTerm_false_of (by omega)
      rw [if_neg (by simp [hlt]), toLower_eq_self (by omega), ← hl, mk_toList]
  | PascalCase =>
    simp only [caseValidators] at hv
    simp only [caseConverters]
    cases hl : name.toList with
    | nil => rw [hl] at hv; exact absurd hv (by decide)
    | cons c rest =>
      rw [hl] at hv
      unfold matchesShape at hv
      rw [Bool.and_eq_true, List.all_eq_true] at hv
      obtain ⟨hc, hrest⟩ := hv
      have hcr := (isAsciiUpper_iff c).mp hc
      have hnosep : ∀ d ∈ c :: rest, isSepChar d = false := by
        intro d hd
        rcases List.mem_cons.mp hd with rfl | hd2
        · exact isSepChar_false_of (by omega) (by omega)
        · rcases (isAlnumChar_iff d).mp (hrest d hd2) with h | h | h <;>
            exact isSepChar_false_of (by omega) (by omega)
      rw [sepUpperL_of_no_sep hnosep]
      simp only [upperFirstL]
      have hlt : isLineTerm c = false := isLineTerm_false_of (by omega)
      rw [if_neg (by simp [hlt]), toUpper_eq_self (by omega), ← hl, mk_toList]
  | snake_case =>
    simp only [caseValidators] at hv
    simp only [caseConverters]
    cases hl : name.toList with
    | nil => rw [hl] at hv; exact absurd hv (by decide)
    | cons c rest =>
      rw [hl] at hv
      unfold matchesShape at hv
      rw [Bool.and_eq_true, List.all_eq_true] at hv
      obtain ⟨hc, hrest⟩ := hv
      have hcr := (isAsciiLower_iff c).mp hc
      have hnoup : ∀ d ∈ c :: rest, isAsciiUpper d = false := by
        intro d hd
        rcases List.mem_cons.mp hd with rfl | hd2
        · rw [Bool.eq_false_iff]; intro hu; have := (isAsciiUpper_iff d).mp hu; omega
        · rcases (isSnakeTail_iff d).mp (hrest d hd2) with h | h | h <;>
            (rw [Bool.eq_false_iff]; intro hu; have := (isAsciiUpper_iff d).mp hu; omega)
      rw [insertSepL_of_no_upper hnoup, map_toLower_of_no_upper hnoup]
      simp only [dropLeading]
      rw [if_neg ?_, ← hl, mk_toList]
      rw [char_beq_iff_toNat]
      have h2 : ('_' : Char).toNat = 95 := by decide
      omega
  | kebab_case =>
    simp only [caseValidators] at hv
    simp only [caseConverters]
    cases hl : name.toList with
    | nil => rw [hl] at hv; exact absurd hv (by decide)
    | cons c rest =>
      rw [hl] at hv
      unfold matchesShape at hv
      rw [Bool.and_eq_true, List.all_eq_true] at hv
      obtain ⟨hc, hrest⟩ := hv
      have hcr := (isAsciiLower_iff c).mp hc
      have hnoup : ∀ d ∈ c :: rest, isAsciiUpper d = false := by
        intro d hd
        rcases List.mem_cons.mp hd with rfl | hd2
        · rw [Bool.eq_false_iff]; intro hu; have := (isAsciiUpper_iff d).mp hu; omega
        · rcases (isKebabTail_iff d).mp (hrest d hd2) with h | h | h <;>
            (rw [Bool.eq_false_iff]; intro hu; have := (isAsciiUpper_iff d).mp hu; omega)
      rw [insertSepL_of_no_upper hnoup, map_toLower_of_no_upper hnoup]
      simp only [dropLeading]
      rw [if_neg ?_, ← hl, mk_toList]
      rw [char_beq_iff_toNat]
      have h1 : ('-' : Char).toNat = 45 := by decide
      omega

theorem isSepChar_toLower {c : Char} (h : isSepChar c = false) :
    isSepChar (Char.toLower c) = false := by
  by_cases hc : 65 ≤ c.toNat ∧ c.toNat ≤ 90
  · apply isSepChar_false_of <;> rw [toLower_toNat_of_upper hc.1 hc.2] <;> omega
  · rw [toLower_eq_self hc]; exact h

theorem isSepChar_toUpper {c : Char} (h : isSepChar c = false) :
    isSepChar (Char.toUpper c) = false := by
  by_cases hc : 97 ≤ c.toNat ∧ c.toNat ≤ 122
  · apply isSepChar_false_of <;> rw [toUpper_toNat_of_lower hc.1 hc.2] <;> omega
  · rw [toUpper_eq_self hc]; exact h

theorem isLineTerm_toLower (c : Char) : isLineTerm (Char.toLower c) = isLineTerm c := by
  by_cases hc : 65 ≤ c.toNat ∧ c.toNat ≤ 90
  · rw [isLineTerm_false_of (by rw [toLower_toNat_of_upper hc.1 hc.2]; omega),
        isLineTerm_false_of (by omega)]
  · rw [toLower_eq_self hc]

theorem isLineTerm_toUpper (c : Char) : isLineTerm (Char.toUpper c) = isLineTerm c := by
  by_cases hc : 97 ≤ c.toNat ∧ c.toNat ≤ 122
  · rw [isLineTerm_false_of (by rw [toUpper_toNat_of_lower hc.1 hc.2]; omega),
        isLineTerm_false_of (by omega)]
  · rw [toUpper_eq_self hc]

theorem toLower_toLower (c : Char) : Char.toLower (Char.toLower c) = Char.toLower c := by
  by_cases hc : 65 ≤ c.toNat ∧ c.toNat ≤ 90
  · apply toLower_eq_self; rw [toLower_toNat_of_upper hc.1 hc.2]; omega
  · rw [toLower_eq_self hc, toLower_eq_self hc]

theorem toUpper_toUpper (c : Char) : Char.toUpper (Char.toUpper c) = Char.toUpper c := by
  by_cases hc : 97 ≤ c.toNat ∧ c.toNat ≤ 122
  · apply toUpper_eq_self; rw [toUpper_toNat_of_lower hc.1 hc.2]; omega
  · rw [toUpper_eq_self hc, toUpper_eq_self hc]

theorem lowerFirstL_sep_free {l : List Char} (h : ∀ c ∈ l, isSepChar c = false) :
    ∀ c ∈ lowerFirstL l, isSepChar c = false := by
  cases l with
  | nil => simp [lowerFirstL]
  | cons c rest =>
    simp only [lowerFirstL]
    split
    · exact h
    · intro d hd
      rcases List.mem_cons.mp hd with rfl | h2
      · exact isSepChar_toLower (h c (List.mem_cons_self c rest))
      · exact h d (List.mem_cons_of_mem _ h2)

theorem upperFirstL_sep_free {l : List Char} (h : ∀ c ∈ l, isSepChar c = false) :
    ∀ c ∈ upperFirstL l, isSepChar c = false := by
  cases l with
  | nil => simp [upperFirstL]
  | cons c rest =>
    simp only [upperFirstL]
    split
    · exact h
    · intro d hd
      rcases List.mem_cons.mp hd with rfl | h2
      · exact isSepChar_toUpper (h c (List.mem_cons_self c rest))
      · exact h d (List.mem_cons_of_mem _ h2)

theorem lowerFirstL_idem (l : List Char) : lowerFirstL (lowerFirstL l) = lowerFirstL l := by
  cases l with
  | nil => rfl
  | cons c rest =>
    by_cases hc : isLineTerm c = true
    · simp only [lowerFirstL, if_pos hc]
    · simp only [lowerFirstL, if_neg hc]
      rw [isLineTerm_toLower, if_neg hc, toLower_toLower]

theorem upperFirstL_idem (l : List Char) : upperFirstL (upperFirstL l) = upperFirstL l := by
  cases l with
  | nil => rfl
  | cons c rest =>
    by_cases hc : isLineTerm c = true
    · simp only [upperFirstL, if_pos hc]
    · simp only [upperFirstL, if_neg hc]
      rw [isLineTerm_toUpper, if_neg hc, toUpper_toUpper]

theorem mem_dropLeading {sep : Char} {l : List Char} : ∀ c ∈ dropLeading sep l, c ∈ l := by
  cases l with
  | nil => simp [dropLeading]
  | cons c rest =>
    simp only [dropLeading]
    split
    · intro d hd; exact List.mem_cons_of_mem _ hd
    · intro d hd; exact hd

theorem snakeResult_no_upper (sep : Char) (l : List Char) :
    ∀ c ∈ dropLeading sep ((insertSepL sep l).map Char.toLower), isAsciiUpper c = false := by
  intro c hc
  have hm := mem_dropLeading c hc
  obtain ⟨d, _, rfl⟩ := List.mem_map.mp hm
  exact isAsciiUpper_toLower d

theorem snakeResult_head {sep : Char} (hsep : sep.toNat = 45 ∨ sep.toNat = 95)
    {l : List Char} (hl : ∀ c ∈ l, (c == sep) = false) :
    dropLeading sep ((insertSepL sep l).map Char.toLower) = [] ∨
    ∃ d t, dropLeading sep ((insertSepL sep l).map Char.toLower) = d :: t ∧ (d == sep) = false := by
  cases l with
  | nil => left; rfl
  | cons c rest =>
    right
    by_cases hc : isAsciiUpper c = true
    · have hcr := (isAsciiUpper_iff c).mp hc
      refine ⟨Char.toLower c, (insertSepL sep rest).map Char.toLower, ?_, ?_⟩
      · simp only [insertSepL, if_pos hc, List.map_cons, dropLeading]
        rw [toLower_eq_self (by omega), if_pos (beq_self_eq_true sep)]
      · rw [Bool.eq_false_iff]
        intro hb
        have := (char_beq_iff_toNat _ _).mp hb
        rw [toLower_toNat_of_upper hcr.1 hcr.2] at this
        omega
    · have hcf : isAsciiUpper c = false := by simpa using hc
      refine ⟨c, (insertSepL sep rest).map Char.toLower, ?_,
        hl c (List.mem_cons_self c rest)⟩
      have hif : insertSepL sep (c :: rest) = c :: insertSepL sep rest := by
        simp only [insertSepL]
        rw [if_neg (by simp [hcf])]
      rw [hif, List.map_cons]
      simp only [dropLeading]
      rw [toLower_eq_self (isAsciiUpper_false_range hcf),
          if_neg (by simp [hl c (List.mem_cons_self c rest)])]

/-- C4 (amended): for every convention other than UPPER_SNAKE_CASE, the
converter is idempotent on every name containing neither `-` nor `_`.
(In general the claimed law fails: camelCase is not idempotent on names
with consecutive separators, and the UPPER_SNAKE_CASE converter is not
idempotent even on separator-free names.) -/
theorem convert_idempotent_on_sep_free (ct : CaseType) (hct : ct ≠ CaseType.UPPER_SNAKE_CASE)
    (name : String) (hsep : ∀ c ∈ name.toList, isSepChar c = false) :
    caseConverters ct (caseConverters ct name) = caseConverters ct name := by
  cases ct with
  | UPPER_SNAKE_CASE => exact absurd rfl hct
  | camelCase =>
    simp only [caseConverters, toList_mk]
    rw [sepUpperL_of_no_sep hsep, sepUpperL_of_no_sep (lowerFirstL_sep_free hsep),
        lowerFirstL_idem]
  | PascalCase =>
    simp only [caseConverters, toList_mk]
    rw [sepUpperL_of_no_sep hsep, sepUpperL_of_no_sep (upperFirstL_sep_free hsep),
        upperFirstL_idem]
  | snake_case =>
    simp only [caseConverters, toList_mk]
    have hnu := snakeResult_no_upper '_' name.toList
    rw [insertSepL_of_no_upper hnu, map_toLower_of_no_upper hnu]
    have hl : ∀ c ∈ name.toList, (c == '_') = false := by
      intro d hd
      have := hsep d hd
      unfold isSepChar at this
      rw [Bool.or_eq_false_iff] at this
      exact this.2
    rcases snakeResult_head (Or.inr (by decide)) hl with h0 | ⟨d, t, heq, hne⟩
    · rw [h0]; rfl
    · rw [heq]
      simp only [dropLeading]
      rw [if_neg (by simp [hne])]
  | kebab_case =>
    simp only [caseConverters, toList_mk]
    have hnu := snakeResult_no_upper '-' name.toList
    rw [insertSepL_of_no_upper hnu, map_toLower_of_no_upper hnu]
    have hl : ∀ c ∈ name.toList, (c == '-') = false := by
      intro d hd
      have := hsep d hd
      unfold isSepChar at this
      rw [Bool.or_eq_false_iff] at this
      exact this.1
    rcases snakeResult_head (Or.inl (by decide)) hl with h0 | ⟨d, t, heq, hne⟩
    · rw [h0]; rfl
    · rw [heq]
      simp only [dropLeading]
      rw [if_neg (by simp [hne])]

/-! ### Claim theorems -/

/-- C1: for every declarator and configuration, a finding is emitted iff
the declarator passes the full guard chain (is in scope), the current name
fails validation, and conversion changes the name; in particular, when the
converted name equals the current name no finding is ever emitted, even if
validation failed. -/
theorem finding_emitted_iff (cfg : Config) (oracle : TypeOracle)
    (lookup : ImportLookup) (node : VariableDeclarator) :
    ((visitVariableDeclarator cfg oracle lookup node).isSome = true ↔
      (inScope cfg oracle lookup node = true ∧
       isValidCase cfg (declName node) = false ∧
       convertToCase cfg (declName node) ≠ declName node)) ∧
    (convertToCase cfg (declName node) = declName node →
      visitVariableDeclarator cfg oracle lookup node = none) := by
  refine ⟨emits_iff cfg oracle lookup node, ?_⟩
  intro hc
  rcases h : visitVariableDeclarator cfg oracle lookup node with _ | f
  · rfl
  · have hs := (emits_iff cfg oracle lookup node).mp (by rw [h]; rfl)
    exact absurd hc hs.2.2

/-- C2 counterexample: "AB" is accepted by the UPPER_SNAKE_CASE validator
yet its converter maps it to "A_B", so valid names are not fixed points of
the converter of their own convention. -/
theorem upper_snake_valid_not_fixed :
    caseValidators CaseType.UPPER_SNAKE_CASE "AB" = true ∧
    caseConverters CaseType.UPPER_SNAKE_CASE "AB" = "A_B" ∧
    caseConverters CaseType.UPPER_SNAKE_CASE "AB" ≠ "AB" := by decide

/-- C2 witness: the amended fixed-point law applied at camelCase, "myVar". -/
theorem valid_fixed_point_witness :
    caseConverters CaseType.camelCase "myVar" = "myVar" :=
  valid_fixed_point CaseType.camelCase (by decide) "myVar" (by decide)

/-- C3 counterexample: with the hook pattern disabled and an initializer
that is a call with a bare-identifier callee (matching no factory list),
the shape classifier answers false — the initializer does NOT fall through
to the generic "any call expression counts as simple" rule. -/
theorem hook_disabled_bare_call_counterexample :
    hookDisabledConfig.hookPattern = none ∧
    isSimpleValue hookDisabledConfig bareCallNode = false := ⟨rfl, by decide⟩

/-- C3 (amended): when the hook pattern is disabled, the hook branch of the
shape classifier returns false and a declarator whose initializer is a call
with a bare-identifier callee is never classified simple; the generic
any-call rule only reaches call expressions with non-identifier callees. -/
theorem hook_disabled_bare_call_not_simple (cfg : Config)
    (hp : cfg.hookPattern = none) (node : VariableDeclarator)
    (calleeName : String)
    (hinit : node.init = some (Expr.callExpression (Expr.identifier calleeName))) :
    isSimpleValue cfg node = false := by
  obtain ⟨id, init⟩ := node
  simp only at hinit
  subst hinit
  simp only [isSimpleValue]
  split
  · rfl
  · split
    · rename_i hmem
      simp only [Expr.nodeType] at hmem
      exact absurd hmem (by decide)
    · rw [hp]

/-- C3 witness: the amended statement applied at the concrete disabled-hook
configuration and bare-identifier call node. -/
theorem hook_disabled_bare_call_witness :
    isSimpleValue hookDisabledConfig bareCallNode = false :=
  hook_disabled_bare_call_not_simple hookDisabledConfig rfl bareCallNode "fetchValue" rfl

/-- C4 counterexample: the UPPER_SNAKE_CASE converter is not idempotent on
"ab", and the camelCase converter is not idempotent on "a--b". -/
theorem converter_not_idempotent :
    caseConverters CaseType.UPPER_SNAKE_CASE
        (caseConverters CaseType.UPPER_SNAKE_CASE "ab") ≠
      caseConverters CaseType.UPPER_SNAKE_CASE "ab" ∧
    caseConverters CaseType.camelCase (caseConverters CaseType.camelCase "a--b") ≠
      caseConverters CaseType.camelCase "a--b" := by decide

/-- C4 witness: the amended idempotence law applied at camelCase, "aB". -/
theorem convert_idempotent_witness :
    caseConverters CaseType.camelCase (caseConverters CaseType.camelCase "aB") =
      caseConverters CaseType.camelCase "aB" :=
  convert_idempotent_on_sep_free CaseType.camelCase (by decide) "aB" (by decide)

/-- C5: a declarator whose binding target is a destructuring pattern is
excluded under every configuration and every oracle — with
ignoreDestructuring on it returns at guard 1, with it off at guard 2 —
and no later guard (imports, allowlist, type or shape classification) is
ever consulted, since the result is none for all of them. -/
theorem pattern_target_never_reported (cfg : Config) (oracle : TypeOracle)
    (lookup : ImportLookup) (node : VariableDeclarator)
    (h : node.id = BindingId.pattern) :
    visitVariableDeclarator cfg oracle lookup node = none := by
  obtain ⟨id, init⟩ := node
  cases id with
  | identifier nm annot => exact absurd h (by simp)
  | pattern => simp [visitVariableDeclarator]

/-- C5 witness: a destructuring declarator under a concrete configuration. -/
theorem pattern_target_never_reported_witness :
    visitVariableDeclarator hookDisabledConfig throwingOracle noImportLookup
      ⟨BindingId.pattern, some Expr.objectExpression⟩ = none :=
  pattern_target_never_reported hookDisabledConfig throwingOracle noImportLookup
    ⟨BindingId.pattern, some Expr.objectExpression⟩ rfl

/-- C6: if the type-engine query throws for a declarator with no syntactic
any annotation, hasAnyType is false and the visitor's verdict coincides
with the verdict under an always-throwing oracle, i.e. the analysis
continues on the shape-based path alone; nothing is propagated and the
visitor still returns a value. -/
theorem oracle_throw_fail_open (cfg : Config) (oracle : TypeOracle)
    (lookup : ImportLookup) (node : VariableDeclarator)
    (hsyn : hasSyntacticAnyAnnot node = false)
    (herr : oracle node = Except.error ()) :
    hasAnyType cfg oracle node = false ∧
    visitVariableDeclarator cfg oracle lookup node =
      visitVariableDeclarator cfg throwingOracle lookup node := by
  have h1 : hasAnyType cfg oracle node = false := by
    obtain ⟨id, init⟩ := node
    cases id with
    | pattern => simp only [hasAnyType]; rw [herr]
    | identifier nm annot =>
      cases annot with
      | none => simp only [hasAnyType]; rw [herr]
      | some a =>
        cases a with
        | tsAnyKeyword => exact absurd hsyn (by simp [hasSyntacticAnyAnnot])
        | otherAnnot => simp only [hasAnyType]; rw [herr]
  have h2 : hasAnyType cfg throwingOracle node = false := by
    obtain ⟨id, init⟩ := node
    cases id with
    | pattern => rfl
    | identifier nm annot =>
      cases annot with
      | none => rfl
      | some a =>
        cases a with
        | tsAnyKeyword => exact absurd hsyn (by simp [hasSyntacticAnyAnnot])
        | otherAnnot => rfl
  refine ⟨h1, ?_⟩
  obtain ⟨id, init⟩ := node
  cases id with
  | pattern => rfl
  | identifier nm annot =>
    simp only [visitVariableDeclarator, h1, h2]

/-- C6 witness: a throwing oracle on a concrete un-annotated declarator. -/
theorem oracle_throw_fail_open_witness :
    hasAnyType hookDisabledConfig throwingOracle
      ⟨BindingId.identifier "x" none, some Expr.literal⟩ = false ∧
    visitVariableDeclarator hookDisabledConfig throwingOracle noImportLookup
      ⟨BindingId.identifier "x" none, some Expr.literal⟩ =
    visitVariableDeclarator hookDisabledConfig throwingOracle noImportLookup
      ⟨BindingId.identifier "x" none, some Expr.literal⟩ :=
  oracle_throw_fail_open hookDisabledConfig throwingOracle noImportLookup
    ⟨BindingId.identifier "x" none, some Expr.literal⟩ rfl rfl

/-- C7: with both the component-creator and the styled-library lists empty,
the factory heuristic returns false for every initializer. -/
theorem factory_heuristic_disabled (cfg : Config)
    (h1 : cfg.componentCreators = []) (h2 : cfg.styledLibraries = [])
    (init : Option Expr) :
    isComponentCreator cfg init = false := by
  cases init with
  | none => rfl
  | some e =>
    show isComponentCreatorExpr cfg e = false
    unfold isComponentCreatorExpr
    rw [h1, h2]
    simp

/-- C7 witness: the empty-lists configuration on a styled call initializer. -/
theorem factory_heuristic_disabled_witness :
    isComponentCreator emptyListsConfig
      (some (Expr.callExpression (Expr.identifier "styled"))) = false :=
  factory_heuristic_disabled emptyListsConfig rfl rfl
    (some (Expr.callExpression (Expr.identifier "styled")))

/-- C9: an identifier target annotated with the literal any keyword makes
hasAnyType true for every configuration (in particular every excludeTypes
list) and every oracle: the syntactic check precedes and bypasses both. -/
theorem syntactic_any_bypasses_exclusion (cfg : Config) (oracle : TypeOracle)
    (name : String) (init : Option Expr) :
    hasAnyType cfg oracle
      ⟨BindingId.identifier name (some TypeAnnot.tsAnyKeyword), init⟩ = true := rfl

/-- C10: a tagged-template initializer is never classified simple, whether
or not its tag matches a styled-library name; hence a finding on such a
declarator can only arise when the type classifier reports a dynamic type. -/
theorem tagged_template_never_simple (cfg : Config) (oracle : TypeOracle)
    (lookup : ImportLookup) (node : VariableDeclarator) (tag : Expr)
    (hinit : node.init = some (Expr.taggedTemplateExpression tag)) :
    isSimpleValue cfg node = false ∧
    ((visitVariableDeclarator cfg oracle lookup node).isSome = true →
      hasAnyType cfg oracle node = true) := by
  obtain ⟨id, init⟩ := node
  simp only at hinit
  subst hinit
  have hsimple : isSimpleValue cfg ⟨id, some (Expr.taggedTemplateExpression tag)⟩ = false := by
    simp only [isSimpleValue]
    split
    · rfl
    · split
      · rename_i hmem
        simp only [Expr.nodeType] at hmem
        exact absurd hmem (by decide)
      · simp [Expr.nodeType]
  refine ⟨hsimple, ?_⟩
  intro hs
  have h := (emits_iff cfg oracle lookup
    ⟨id, some (Expr.taggedTemplateExpression tag)⟩).mp hs
  obtain ⟨hin, _, _⟩ := h
  cases id with
  | pattern => simp [inScope] at hin
  | identifier nm annot =>
    simp only [inScope, Bool.and_eq_true, Bool.or_eq_true] at hin
    rcases hin.2 with hany | hsimp
    · exact hany
    · rw [hsimple] at hsimp
      exact absurd hsimp (by decide)

/-- C10 witness: a concrete styled tagged-template declarator. -/
theorem tagged_template_never_simple_witness :
    isSimpleValue hookDisabledConfig
      ⟨BindingId.identifier "x" none,
       some (Expr.taggedTemplateExpression (Expr.identifier "styled"))⟩ = false ∧
    ((visitVariableDeclarator hookDisabledConfig throwingOracle noImportLookup
      ⟨BindingId.identifier "x" none,
       some (Expr.taggedTemplateExpression (Expr.identifier "styled"))⟩).isSome = true →
      hasAnyType hookDisabledConfig throwingOracle
        ⟨BindingId.identifier "x" none,
         some (Expr.taggedTemplateExpression (Expr.identifier "styled"))⟩ = true) :=
  tagged_template_never_simple hookDisabledConfig throwingOracle noImportLookup
    ⟨BindingId.identifier "x" none,
     some (Expr.taggedTemplateExpression (Expr.identifier "styled"))⟩
    (Expr.identifier "styled") rfl

/-- C8 counterexample: the empty string fails validation under camelCase
(every validator regex demands a first character), contradicting the claim
that it validates under every convention. -/
theorem empty_string_invalid :
    caseValidators CaseType.camelCase "" = false := by decide

/-- C8 (amended): under every convention the empty string fails validation
and converts to itself; both functions are total on the empty string (the
embedding has no partiality to begin with, matching the non-throwing
regex/replace calls of the source). -/
theorem empty_string_behavior (ct : CaseType) :
    caseValidators ct "" = false ∧ caseConverters ct "" = "" := by
  cases ct <;> exact ⟨rfl, rfl⟩

end VariableNaming
